import Mathlib

/-!
Verification of the trade lifecycle engine of an automated trading bot
(bot1.py, bot4.py, strategies.py, api_client.py) against its
natural-language specification.  Machine floats are modelled as exact
rationals; stateful loops are modelled as explicit step functions over
record types; network responses are supplied as explicit oracles.
-/

/-- Python `round(x, 2)`: rounding to two decimal places, ties to even.
Models the `round(..., 2)` calls of bot1.py. -/
def roundHalfEven (x : ℚ) : ℤ :=
  let f := ⌊x⌋
  if x - f < 1/2 then f
  else if 1/2 < x - f then f + 1
  else if f % 2 = 0 then f else f + 1

/-- Two-decimal rounding used throughout bot1.py for TP/SL levels. -/
def round2 (x : ℚ) : ℚ := (roundHalfEven (100 * x) : ℚ) / 100

/-- bot1.py `TP_MOVE_PERCENT = 0.5 / 100`. -/
def tpMovePercent : ℚ := 0.5 / 100

/-- bot1.py `BREAKEVEN_TRIGGER = 1 / 100`. -/
def breakevenTrigger : ℚ := 1 / 100

/-- Take-profit computation of bot1.py `trade_action` (lines 318-324):
raw 0.5 percent offset by direction, widened to the broker minimum
distance when too close to the reference price. -/
def tradeActionTP (action : String) (price minDistance : ℚ) : ℚ :=
  let tp := round2 (price * (if action = "BUY" then 1.005 else 0.995))
  if |tp - price| < minDistance then
    round2 (price + (if action = "BUY" then minDistance else -minDistance))
  else tp

/-- Stop-loss computation of bot1.py `trade_action` (lines 320-327). -/
def tradeActionSL (action : String) (price minDistance : ℚ) : ℚ :=
  let sl := round2 (price * (if action = "BUY" then 0.995 else 1.005))
  if |sl - price| < minDistance then
    round2 (price - (if action = "BUY" then minDistance else -minDistance))
  else sl

/-- Take-profit computation of bot1.py `set_take_profit_after_open`
(lines 474-485): the repair path used after an order opens without a
take-profit. -/
def setTakeProfitAfterOpenTP (direction : String) (entryPrice minDistance : ℚ) : ℚ :=
  let tp := round2 (entryPrice * (if direction = "SELL" then 0.995 else 1.005))
  if |tp - entryPrice| < minDistance then
    round2 (entryPrice + (if direction = "BUY" then minDistance else -minDistance))
  else tp

/-- Transport retry configuration, as built by bot1.py `create_session`
(lines 60-71): urllib3 `Retry(total=3, status_forcelist=[...],
allowed_methods=[...])`. -/
structure RetryPolicy where
  total : Nat
  statusForcelist : List Nat
  allowedMethods : List String
deriving DecidableEq

/-- The retry policy bot1.py installs on every session. -/
def createSessionRetry : RetryPolicy :=
  { total := 3
    statusForcelist := [429, 500, 502, 503, 504]
    allowedMethods := ["GET", "POST", "PUT", "DELETE"] }

/-- Number of transport-level retries urllib3 performs for a request of
the given method receiving the given status under a policy. -/
def transportRetries (p : RetryPolicy) (method : String) (status : Nat) : Nat :=
  if method ∈ p.allowedMethods ∧ status ∈ p.statusForcelist then p.total else 0

/-- Arguments of one spawned `trade_action` invocation (bot1.py line 629). -/
structure SpawnedTrade where
  symbol : String
  action : String
  price : ℚ
  mode : String
deriving DecidableEq

/-- Broker-side behaviour visible to one `trade_action` run: whether
authentication succeeds, the minimum-distance lookup result, and the
status the order POST eventually returns. -/
structure BrokerEnv where
  authOk : Bool
  minDistance : Option ℚ
  orderStatus : Nat
deriving DecidableEq

/-- Outcome of one `trade_action` run (bot1.py lines 298-379). -/
inductive TradeOutcome where
  | authFailed
  | updatedTP
  | noMinDistance
  | executed (status : Nat) (tp sl : ℚ)
deriving DecidableEq

/-- bot1.py `trade_action` as a function of its arguments and the broker
behaviour; the second component counts how many order-placement POSTs
the function itself submits (the transport layer may retry each one per
`createSessionRetry`).  On a non-200 status the failure is logged and the
function returns without submitting again. -/
def tradeActionRun (t : SpawnedTrade) (env : BrokerEnv) : TradeOutcome × Nat :=
  if env.authOk = false then (.authFailed, 0)
  else if t.action = "UPDATE_TP" then (.updatedTP, 0)
  else
    match env.minDistance with
    | none => (.noMinDistance, 0)
    | some d => (.executed env.orderStatus (tradeActionTP t.action t.price d)
        (tradeActionSL t.action t.price d), 1)

/-- Python truthiness of an optional string: absent and empty are falsy. -/
def truthy : Option String → Bool
  | none => false
  | some s => s != ""

/-- A webhook payload: each field possibly absent; the price field, when
present, either parses to a rational (`some q`) or does not (`none`). -/
structure WebhookPayload where
  symbol : Option String
  action : Option String
  price : Option (Option ℚ)
deriving DecidableEq

/-- An HTTP response of the Flask handlers. -/
structure HttpResponse where
  status : Nat
  body : String
deriving DecidableEq

/-- bot1.py `webhook` handler (lines 611-637): validates symbol/action
truthiness, parses the price with default 0 when the field is absent,
and spawns `trade_action` on a separate thread; the HTTP response is
produced without waiting for the spawned trade. -/
def webhook1 (p : WebhookPayload) : HttpResponse × Option SpawnedTrade :=
  if ¬(truthy p.symbol = true ∧ truthy p.action = true) then
    ({ status := 400, body := "Missing required fields" }, none)
  else
    match p.price with
    | some none => ({ status := 400, body := "Invalid price value" }, none)
    | some (some q) =>
        ({ status := 200,
           body := "Trade request received: " ++ p.action.getD "" ++ " " ++
             p.symbol.getD "" ++ " at " ++ toString q },
         some { symbol := p.symbol.getD "", action := p.action.getD "",
                price := q, mode := "SCALP" })
    | none =>
        ({ status := 200,
           body := "Trade request received: " ++ p.action.getD "" ++ " " ++
             p.symbol.getD "" ++ " at " ++ toString (0 : ℚ) },
         some { symbol := p.symbol.getD "", action := p.action.getD "",
                price := 0, mode := "SCALP" })

/-- bot4.py `webhook` handler (lines 753-773): rejects a missing
symbol/action/price with 400; an unparseable price raises inside the
handler and is answered with 500; the trade runs synchronously. -/
def webhook4 (p : WebhookPayload) : HttpResponse × Option SpawnedTrade :=
  if truthy p.symbol = false ∨ truthy p.action = false ∨ p.price = none then
    ({ status := 400, body := "Invalid webhook parameters" }, none)
  else
    match p.price with
    | some (some q) =>
        ({ status := 200,
           body := "Trade executed: " ++ p.action.getD "" ++ " " ++
             p.symbol.getD "" ++ " at " ++ toString q },
         some { symbol := p.symbol.getD "", action := p.action.getD "",
                price := q, mode := "SCALP" })
    | _ => ({ status := 500, body := "Webhook processing error" }, none)

/-- bot1.py webhook followed by the spawned trade execution against a
given broker environment: the response is the first component, the
eventual trade outcome (with its POST count) the second. -/
def webhook1Run (p : WebhookPayload) (env : BrokerEnv) :
    HttpResponse × Option (TradeOutcome × Nat) :=
  let r := webhook1 p
  (r.1, r.2.map (fun t => tradeActionRun t env))

/-- api_client.py `CapitalComClient._make_request` (lines 148-182)
against an oracle listing the status each successive attempt receives:
on a 401 the client re-authenticates and calls itself again, consuming
the next response.  Returns the number of re-authentications performed
and the first non-401 status reached (`none` when the oracle is
exhausted, i.e. 401 responses never stop). -/
def makeRequestAux : List Nat → Nat → Nat × Option Nat
  | [], reauths => (reauths, none)
  | s :: rest, reauths =>
      if s = 401 then makeRequestAux rest (reauths + 1) else (reauths, some s)

/-- Length of the leading run of 401 statuses in a response oracle. -/
def leading401Count : List Nat → Nat
  | [] => 0
  | s :: rest => if s = 401 then leading401Count rest + 1 else 0

/-- First non-401 status in a response oracle. -/
def firstNon401 : List Nat → Option Nat
  | [] => none
  | s :: rest => if s = 401 then firstNon401 rest else some s

/-- One broker position record as consumed by the monitoring loops;
every field the loops index may be absent (a missing key raises in
Python). -/
structure TradeRec where
  epic : Option String
  level : Option ℚ
  limitLevel : Option ℚ
  profitLevel : Option ℚ
  direction : Option String
deriving DecidableEq

/-- Current take-profit as read by bot1.py `monitor_trades`:
`float(trade.get("limitLevel", 0))`. -/
def currentTPOf (t : TradeRec) : ℚ := t.limitLevel.getD 0

/-- Per-position body of bot1.py `monitor_trades` (lines 896-913),
returning the take-profit level the pass decides on for this position
(unchanged when no update is triggered), or the error that aborts this
position.  Missing `epic` or `level` keys raise `KeyError` in Python. -/
def bot1MonitorStep (t : TradeRec) : Except String ℚ :=
  match t.epic with
  | none => .error "KeyError: epic"
  | some _ =>
    match t.level with
    | none => .error "KeyError: level"
    | some entryPrice =>
      let currentTP := currentTPOf t
      match t.direction with
      | some "BUY" =>
          let newTP := round2 (entryPrice * (1 + tpMovePercent))
          .ok (if newTP > currentTP then newTP else currentTP)
      | some "SELL" =>
          let newTP := round2 (entryPrice * (1 - tpMovePercent))
          .ok (if newTP < currentTP then newTP else currentTP)
      | _ => .ok currentTP

/-- One pass of bot1.py `monitor_trades` over the listed positions: each
position is processed inside its own try/except (lines 897, 914-915), so
every position yields its own result. -/
def bot1MonitorPass (ts : List TradeRec) : List (Except String ℚ) :=
  ts.map bot1MonitorStep

/-- Per-position body of bot4.py `monitor_trades` (lines 1033-1051):
`float(trade["level"])` and `float(trade["profitLevel"])` raise on a
missing key; a falsy current price skips the position (`continue`); the
take-profit comparison uses the BUY formula for every direction; the
breakeven block proposes moving the stop to entry.  Returns the decided
(take-profit, optional breakeven stop) for the position. -/
def bot4MonitorStep (t : TradeRec) (currentPrice : ℚ) :
    Except String (Option (ℚ × Option ℚ)) :=
  match t.epic with
  | none => .error "KeyError: epic"
  | some _ =>
    match t.level with
    | none => .error "KeyError: level"
    | some entryPrice =>
      if currentPrice = 0 then .ok none
      else
        match t.profitLevel with
        | none => .error "KeyError: profitLevel"
        | some currentTP =>
          let newTP := round2 (entryPrice * (1 + tpMovePercent))
          let tp := if newTP > currentTP then newTP else currentTP
          let sl := if currentPrice > entryPrice * (1 + breakevenTrigger)
            then some entryPrice else none
          .ok (some (tp, sl))

/-- One pass of bot4.py `monitor_trades` (lines 1032-1053): the loop body
has no per-position exception handler, so the first failing position
aborts the pass; the result is the list of positions actually processed
and the aborting error, if any. -/
def bot4MonitorPass (currentPrice : ℚ) :
    List TradeRec → List (Option (ℚ × Option ℚ)) × Option String
  | [] => ([], none)
  | t :: ts =>
    match bot4MonitorStep t currentPrice with
    | .error e => ([], some e)
    | .ok r =>
      let rest := bot4MonitorPass currentPrice ts
      (r :: rest.1, rest.2)

/-- Last element with default 0, modelling Python `arr[-1]`. -/
def lastD (l : List ℚ) : ℚ := l.getD (l.length - 1) 0

/-- Second-to-last element with default 0, modelling Python `arr[-2]`. -/
def secondLastD (l : List ℚ) : ℚ := l.getD (l.length - 2) 0

/-- Mean of the window of width `w` starting at index `i`. -/
def windowMean (w : Nat) (l : List ℚ) (i : Nat) : ℚ := ((l.drop i).take w).sum / w

/-- Modelled from the spec: `technical_indicators.calculate_moving_averages`
is imported by strategies.py but absent from the source tree; per spec 4.1
the strategy uses simple moving averages over sliding windows (short 10,
long 20).  `smaList w l` is the list of means of every full width-`w`
window of `l`, oldest first (empty when `l` is shorter than `w`). -/
def smaList (w : Nat) (l : List ℚ) : List ℚ :=
  (List.range (l.length + 1 - w)).map (windowMean w l)

/-- Price change at index `i` of a close series. -/
def deltaAt (cs : List ℚ) (i : Nat) : ℚ := cs.getD i 0 - cs.getD (i - 1) 0

/-- The successive price changes of a close series (length one less). -/
def deltaList (cs : List ℚ) : List ℚ :=
  (List.range' 1 (cs.length - 1)).map (deltaAt cs)

/-- RSI value of one window of price changes: average gain over average
loss, mapped through 100 - 100/(1+RS); a window with no losses yields
100. -/
def rsiOf (win : List ℚ) : ℚ :=
  let gains := (win.filter (fun d => decide (0 < d))).sum
  let losses := -((win.filter (fun d => decide (d < 0))).sum)
  if losses = 0 then 100 else 100 - 100 / (1 + gains / losses)

/-- Modelled from the spec: `technical_indicators.calculate_rsi` is
absent from the source tree; per spec 4.1 the strategy uses a 14-period
RSI with overbought threshold 70.  `rsiList w cs` slides `rsiOf` over
the width-`w` windows of the change series. -/
def rsiList (w : Nat) (cs : List ℚ) : List ℚ :=
  (List.range ((deltaList cs).length + 1 - w)).map
    (fun i => rsiOf (((deltaList cs).drop i).take w))

/-- True range at index `i` from high, low and close series. -/
def trAt (hs ls cs : List ℚ) (i : Nat) : ℚ :=
  max (hs.getD i 0 - ls.getD i 0)
    (max |hs.getD i 0 - cs.getD (i - 1) 0| |ls.getD i 0 - cs.getD (i - 1) 0|)

/-- The true-range series (defined from the second bar on). -/
def trList (hs ls cs : List ℚ) : List ℚ :=
  (List.range' 1 (cs.length - 1)).map (trAt hs ls cs)

/-- Modelled from the spec: `technical_indicators.calculate_atr` is
absent from the source tree; per spec 4.1 / 8 the strategy uses a
14-period average true range.  `atrList w` slides a width-`w` mean over
the true ranges. -/
def atrList (w : Nat) (hs ls cs : List ℚ) : List ℚ := smaList w (trList hs ls cs)

/-- A signal returned by `TrendFollowingStrategy.get_signal`. -/
structure Signal where
  action : String
  quantity : ℚ
  reason : String
deriving DecidableEq

/-- strategies.py `TrendFollowingStrategy.get_signal` (lines 23-79):
highs and lows are simulated from the close series, the four indicator
series are computed, short series return None, and the entry/exit rules
fire on the latest two indicator values.  `positions` is the engine's
own position map `self.positions`. -/
def getSignal (positions : List (String × ℚ)) (symbol : String) (currentPrice : ℚ)
    (priceHistory : List ℚ) (accountBalance : ℚ) : Option Signal :=
  let prices := priceHistory
  let highs := prices.map (fun p => p * 1.001)
  let lows := prices.map (fun p => p * 0.999)
  let atr := atrList 14 highs lows prices
  let smaShort := smaList 10 prices
  let smaLong := smaList 20 prices
  let rsi := rsiList 14 prices
  if atr.length < 2 ∨ smaShort.length < 2 ∨ smaLong.length < 2 ∨ rsi.length < 2 then
    none
  else
    let currentAtr := lastD atr
    let currentRsi := lastD rsi
    match positions.lookup symbol with
    | none =>
        if lastD smaShort > lastD smaLong ∧ secondLastD smaShort ≤ secondLastD smaLong ∧
            currentRsi < 70 then
          let riskAmount := accountBalance * 0.02
          let stopLoss := currentPrice - currentAtr * 2
          let positionSize := riskAmount / (currentPrice - stopLoss)
          some { action := "BUY", quantity := positionSize,
                 reason := "SMA crossover with RSI confirmation" }
        else none
    | some qty =>
        if (lastD smaShort < lastD smaLong ∧ secondLastD smaShort ≥ secondLastD smaLong) ∨
            currentRsi > 70 then
          some { action := "SELL", quantity := qty,
                 reason := "Exit signal: trend reversal or overbought" }
        else none

/-- Maximum of a list of rationals (0 for the empty list, which the
callers exclude), modelling `pandas.Series.max`. -/
def maxList : List ℚ → ℚ
  | [] => 0
  | a :: as => as.foldl max a

/-- Minimum of a list of rationals, modelling `pandas.Series.min`. -/
def minList : List ℚ → ℚ
  | [] => 0
  | a :: as => as.foldl min a

/-- bot1.py `analyze_market` (lines 736-787) after column extraction:
empty data, non-positive price columns and fewer than 14 rows all
resolve to HOLD; otherwise the trend is BUY when the latest close is
above the mean close, else SELL. -/
def analyzeMarket (highs lows closes : List ℚ) : String × Option ℚ × Option String :=
  if closes.isEmpty then ("HOLD", none, none)
  else if maxList highs ≤ 0 ∨ minList lows ≤ 0 ∨ maxList closes ≤ 0 then
    ("HOLD", none, none)
  else if closes.length < 14 then ("HOLD", none, none)
  else
    let latestPrice := lastD closes
    let priceMean := closes.sum / (closes.length : ℚ)
    (if latestPrice > priceMean then "BUY" else "SELL", some latestPrice, some "SCALP")

/-- The short SMA crosses above the long SMA at the latest index of the
series: short above long on the last window pair, short at or below long
on the previous one (both SMA series need at least two entries, i.e. at
least 21 prices). -/
def crossoverAtEnd (ps : List ℚ) : Prop :=
  21 ≤ ps.length ∧
  lastD (smaList 10 ps) > lastD (smaList 20 ps) ∧
  secondLastD (smaList 10 ps) ≤ secondLastD (smaList 20 ps)

instance crossoverAtEndDecidable (ps : List ℚ) : Decidable (crossoverAtEnd ps) := by
  unfold crossoverAtEnd; infer_instance

/-- A 21-entry price series with a clean short-over-long crossover at the
last tick only, mixed gains and losses in the RSI window, used as the
concrete evaluation input. -/
def wSeries : List ℚ :=
  [100, 100, 100, 100, 100, 100, 100, 100, 100, 100,
   109, 89, 109, 89, 109, 89, 109, 89, 109, 89, 129]

/-- The five concrete positions used to exercise the bot4 monitoring pass:
position 3 lacks the `profitLevel` key the loop indexes unconditionally. -/
def c7trades : List TradeRec :=
  [{ epic := some "S1", level := some 100, limitLevel := none, profitLevel := some 101, direction := some "BUY" },
   { epic := some "S2", level := some 100, limitLevel := none, profitLevel := some 101, direction := some "BUY" },
   { epic := some "S3", level := some 100, limitLevel := none, profitLevel := none, direction := some "BUY" },
   { epic := some "S4", level := some 100, limitLevel := none, profitLevel := some 101, direction := some "BUY" },
   { epic := some "S5", level := some 100, limitLevel := none, profitLevel := some 101, direction := some "BUY" }]

theorem length_smaList (w : Nat) (l : List ℚ) : (smaList w l).length = l.length + 1 - w := by
  simp [smaList]

theorem length_deltaList (cs : List ℚ) : (deltaList cs).length = cs.length - 1 := by
  simp [deltaList]

theorem length_trList (hs ls cs : List ℚ) : (trList hs ls cs).length = cs.length - 1 := by
  simp [trList]

theorem length_rsiList (w : Nat) (cs : List ℚ) :
    (rsiList w cs).length = (cs.length - 1) + 1 - w := by
  simp [rsiList, length_deltaList]

theorem length_atrList (w : Nat) (hs ls cs : List ℚ) :
    (atrList w hs ls cs).length = (cs.length - 1) + 1 - w := by
  simp [atrList, length_smaList, length_trList]

theorem getD_map_range (f : Nat → ℚ) (m i : Nat) (h : i < m) :
    (((List.range m).map f).getD i 0) = f i := by
  simp [List.getD_eq_getElem?_getD, List.getElem?_map, List.getElem?_range h]

set_option maxRecDepth 100000 in
unseal Rat.add Rat.mul Rat.sub Rat.inv Rat.ofScientific in
/-- C1: for a BUY (resp. SELL) at reference price p and broker minimum
distance d, the computed take-profit is round(p*1.005, 2) and the
stop-loss round(p*0.995, 2) (SELL: factors swapped); a level closer than
d to the price is replaced by round(p + d, 2) on the profitable side of
a BUY and round(p - d, 2) on the other (signs mirrored for SELL); the
post-open repair path computes the same take-profit; for BUY at p = 100
the take-profit is 100.5 when d = 0.3 and 102 when d = 2. -/
theorem c1_protective_levels :
    (∀ p d : ℚ,
      (d ≤ |round2 (p * 1.005) - p| → tradeActionTP "BUY" p d = round2 (p * 1.005)) ∧
      (|round2 (p * 1.005) - p| < d → tradeActionTP "BUY" p d = round2 (p + d)) ∧
      (d ≤ |round2 (p * 0.995) - p| → tradeActionSL "BUY" p d = round2 (p * 0.995)) ∧
      (|round2 (p * 0.995) - p| < d → tradeActionSL "BUY" p d = round2 (p - d)) ∧
      (d ≤ |round2 (p * 0.995) - p| → tradeActionTP "SELL" p d = round2 (p * 0.995)) ∧
      (|round2 (p * 0.995) - p| < d → tradeActionTP "SELL" p d = round2 (p - d)) ∧
      (d ≤ |round2 (p * 1.005) - p| → tradeActionSL "SELL" p d = round2 (p * 1.005)) ∧
      (|round2 (p * 1.005) - p| < d → tradeActionSL "SELL" p d = round2 (p + d)) ∧
      setTakeProfitAfterOpenTP "BUY" p d = tradeActionTP "BUY" p d ∧
      setTakeProfitAfterOpenTP "SELL" p d = tradeActionTP "SELL" p d) ∧
    tradeActionTP "BUY" 100 (3/10) = 100.5 ∧
    tradeActionTP "BUY" 100 2 = 102 := by
  refine ⟨fun p d => ⟨?_, ?_, ?_, ?_, ?_, ?_, ?_, ?_, ?_, ?_⟩, by decide, by decide⟩
  · intro h; simp [tradeActionTP, not_lt.mpr h]
  · intro h; simp [tradeActionTP, h]
  · intro h; simp [tradeActionSL, not_lt.mpr h]
  · intro h; simp [tradeActionSL, h]
  · intro h; simp [tradeActionTP, not_lt.mpr h]
  · intro h; simp [tradeActionTP, h]; congr 1; ring
  · intro h; simp [tradeActionSL, not_lt.mpr h]
  · intro h; simp [tradeActionSL, h]
  · simp [setTakeProfitAfterOpenTP, tradeActionTP]
  · simp [setTakeProfitAfterOpenTP, tradeActionTP]

set_option maxRecDepth 100000 in
unseal Rat.add Rat.mul Rat.sub Rat.inv Rat.ofScientific in
/-- C1 witness: at p = 200, d = 3 the raw take-profit 201 lies within
the minimum distance and is widened to round(200 + 3, 2) = 203. -/
theorem c1_protective_levels_witness :
    |round2 ((200:ℚ) * 1.005) - 200| < 3 ∧ tradeActionTP "BUY" 200 3 = round2 (200 + 3) :=
  ⟨by decide, (c1_protective_levels.1 200 3).2.1 (by decide)⟩

/-- C3 counterexample: the transport retry policy bot1.py installs lists
POST among its allowed methods, so an order-placement POST answered with
500 is retried (3 attempts) by the transport layer, contradicting the
claim that transport retries apply only to GET requests. -/
theorem c3_retry_counterexample :
    transportRetries createSessionRetry "POST" 500 = 3 ∧ "POST" ≠ "GET" := by
  constructor
  · decide
  · decide

/-- C3 amended: transport-level retries (3 attempts on one of
429/500/502/503/504) apply uniformly to GET, POST, PUT and DELETE, so
order placement is transport-retried on those statuses; statuses outside
the forcelist are never transport-retried; and `trade_action` itself
submits the order POST at most once per invocation, surfacing a non-200
response as a failure without resubmitting. -/
theorem c3_transport_and_application :
    (∀ m s, m ∈ createSessionRetry.allowedMethods → s ∈ createSessionRetry.statusForcelist →
      transportRetries createSessionRetry m s = 3) ∧
    (∀ m s, s ∉ createSessionRetry.statusForcelist → transportRetries createSessionRetry m s = 0) ∧
    (∀ t env, (tradeActionRun t env).2 ≤ 1) := by
  refine ⟨fun m s hm hs => if_pos ⟨hm, hs⟩, fun m s hs => if_neg (fun hc => hs hc.2), ?_⟩
  intro t env
  unfold tradeActionRun
  split_ifs <;> try simp
  cases env.minDistance <;> simp

/-- C3 witness: a PUT answered 502 is retried 3 times, a GET answered
404 is not retried. -/
theorem c3_transport_and_application_witness :
    transportRetries createSessionRetry "PUT" 502 = 3 ∧
    transportRetries createSessionRetry "GET" 404 = 0 :=
  ⟨c3_transport_and_application.1 "PUT" 502 (by decide) (by decide),
   c3_transport_and_application.2.1 "GET" 404 (by decide)⟩

/-- C9 counterexample: with responses 401, 401, 200 the client performs
two re-authentications and still replays after the second 401,
eventually returning the 200 - the claim says the second 401 must fail
the call with no further retry or re-authentication. -/
theorem c9_single_replay_counterexample :
    makeRequestAux [401, 401, 200] 0 = (2, some 200) ∧ (2 : Nat) ≠ 1 := by
  constructor
  · rfl
  · decide

/-- C9 amended: `_make_request` re-authenticates and replays once per
401 received, without bound: the number of re-authentications equals the
length of the leading run of 401 responses, and the call returns the
first non-401 status (failing only when 401 responses never stop). -/
theorem c9_reauth_replay_unbounded :
    ∀ (statuses : List Nat) (n : Nat),
      makeRequestAux statuses n = (n + leading401Count statuses, firstNon401 statuses) := by
  intro statuses
  induction statuses with
  | nil => intro n; rfl
  | cons s rest ih =>
      intro n
      by_cases h : s = 401
      · simp only [makeRequestAux, leading401Count, firstNon401, h, if_pos]
        rw [ih (n + 1)]
        have : n + 1 + leading401Count rest = n + (leading401Count rest + 1) := by omega
        rw [this]
      · simp [makeRequestAux, leading401Count, firstNon401, h]

/-- C10: for a syntactically valid webhook payload (truthy symbol and
action, parseable-or-absent price) the bot1 webhook response is the same
regardless of the broker environment, always status 200, and in
particular a broker whose authentication fails still gets the success
response while zero order POSTs happen. -/
theorem c10_response_independent_of_broker :
    ∀ (p : WebhookPayload) (e1 e2 : BrokerEnv),
      truthy p.symbol = true → truthy p.action = true → p.price ≠ some none →
      (webhook1Run p e1).1 = (webhook1Run p e2).1 ∧
      (webhook1Run p e1).1.status = 200 ∧
      (webhook1Run p { authOk := false, minDistance := none, orderStatus := 500 }).2 =
        some (TradeOutcome.authFailed, 0) := by
  intro p e1 e2 hs ha hp
  unfold webhook1Run webhook1
  rw [if_neg (by simp [hs, ha])]
  rcases hq : p.price with _ | oq
  · simp [tradeActionRun]
  · rcases oq with _ | q
    · exact absurd hq hp
    · simp [tradeActionRun]

/-- C10 witness: a concrete valid payload gets the identical 200
response under two different broker environments. -/
theorem c10_response_independent_of_broker_witness :
    (webhook1Run { symbol := some "BTCUSD", action := some "BUY", price := some (some 42) }
        { authOk := true, minDistance := some 1, orderStatus := 200 }).1 =
      (webhook1Run { symbol := some "BTCUSD", action := some "BUY", price := some (some 42) }
        { authOk := false, minDistance := none, orderStatus := 500 }).1 :=
  (c10_response_independent_of_broker _ _ _ (by decide) (by decide) (by decide)).1

/-- C8 counterexample: a payload with symbol and action but no price
field is not rejected by the bot1 webhook: the price silently defaults
to 0, the response is 200, and a trade with non-positive price 0 is
spawned - the claim requires presence of all three fields and a strictly
positive price before any execution. -/
theorem c8_validation_counterexample :
    (webhook1 { symbol := some "BTCUSD", action := some "BUY", price := none }).1.status = 200 ∧
    (webhook1 { symbol := some "BTCUSD", action := some "BUY", price := none }).2 =
      some { symbol := "BTCUSD", action := "BUY", price := 0, mode := "SCALP" } ∧
    ¬ (0 : ℚ) > 0 := by
  refine ⟨rfl, rfl, ?_⟩
  simp

/-- C8 amended: both webhook handlers reject a missing or empty symbol
or action with 400 and no trade; an unparseable price yields 400 (bot1)
or 500 (bot4) with no trade; but neither handler checks price
positivity: any parseable price - zero or negative included - is
accepted with 200 and execution is invoked, and bot1 even accepts a
missing price field, defaulting it to 0. -/
theorem c8_validation_behavior :
    ∀ (p : WebhookPayload) (s a : String) (q : ℚ),
      (truthy p.symbol = false ∨ truthy p.action = false →
        (webhook1 p).1.status = 400 ∧ (webhook1 p).2 = none ∧
        (webhook4 p).1.status = 400 ∧ (webhook4 p).2 = none) ∧
      (p.price = some none →
        (webhook1 p).1.status = 400 ∧ (webhook1 p).2 = none ∧ (webhook4 p).2 = none) ∧
      (p.symbol = some s → p.action = some a → s ≠ "" → a ≠ "" → p.price = some (some q) →
        (webhook1 p).1.status = 200 ∧
        (webhook1 p).2 = some { symbol := s, action := a, price := q, mode := "SCALP" } ∧
        (webhook4 p).1.status = 200 ∧
        (webhook4 p).2 = some { symbol := s, action := a, price := q, mode := "SCALP" }) ∧
      (p.symbol = some s → p.action = some a → s ≠ "" → a ≠ "" → p.price = none →
        (webhook1 p).1.status = 200 ∧
        (webhook1 p).2 = some { symbol := s, action := a, price := 0, mode := "SCALP" }) := by
  intro p s a q
  refine ⟨?_, ?_, ?_, ?_⟩
  · intro h
    have h1 : ¬(truthy p.symbol = true ∧ truthy p.action = true) := by
      rcases h with h | h <;> simp [h]
    have h4 : truthy p.symbol = false ∨ truthy p.action = false ∨ p.price = none :=
      h.imp id Or.inl
    unfold webhook1 webhook4
    rw [if_pos h1, if_pos h4]
    exact ⟨rfl, rfl, rfl, rfl⟩
  · intro hq
    refine ⟨?_, ?_, ?_⟩
    · unfold webhook1
      by_cases h1 : truthy p.symbol = true ∧ truthy p.action = true
      · rw [if_neg (not_not_intro h1), hq]
      · rw [if_pos h1]
    · unfold webhook1
      by_cases h1 : truthy p.symbol = true ∧ truthy p.action = true
      · rw [if_neg (not_not_intro h1), hq]
      · rw [if_pos h1]
    · unfold webhook4
      by_cases h4 : truthy p.symbol = false ∨ truthy p.action = false ∨ p.price = none
      · rw [if_pos h4]
      · rw [if_neg h4, hq]
  · intro hs ha hsne hane hq
    have hts : truthy p.symbol = true := by rw [hs]; simpa [truthy]
    have hta : truthy p.action = true := by rw [ha]; simpa [truthy]
    unfold webhook1 webhook4
    rw [if_neg (by simp [hts, hta]), if_neg (by simp [hts, hta, hq]), hq]
    simp [hs, ha]
  · intro hs ha hsne hane hq
    have hts : truthy p.symbol = true := by rw [hs]; simpa [truthy]
    have hta : truthy p.action = true := by rw [ha]; simpa [truthy]
    unfold webhook1
    rw [if_neg (by simp [hts, hta]), hq]
    simp [hs, ha]

/-- C8 witness: a negative price -1 passes validation in both handlers
and reaches execution. -/
theorem c8_validation_behavior_witness :
    (webhook1 { symbol := some "ETHUSD", action := some "SELL", price := some (some (-1)) }).2 =
      some { symbol := "ETHUSD", action := "SELL", price := -1, mode := "SCALP" } ∧
    (webhook4 { symbol := some "ETHUSD", action := some "SELL", price := some (some (-1)) }).2 =
      some { symbol := "ETHUSD", action := "SELL", price := -1, mode := "SCALP" } :=
  have h := (c8_validation_behavior
    { symbol := some "ETHUSD", action := some "SELL", price := some (some (-1)) }
    "ETHUSD" "SELL" (-1)).2.2.1 rfl rfl (by decide) (by decide) rfl
  ⟨h.2.1, h.2.2.2⟩

set_option maxRecDepth 100000 in
unseal Rat.add Rat.mul Rat.sub Rat.inv Rat.ofScientific in
/-- C2 counterexample: bot4's monitoring loop applies the BUY formula
and the greater-than comparison to every position regardless of
direction, so for a SELL position at entry 100 with take-profit 99.5 it
decides to raise the take-profit to 100.5 - an increase on a SELL
position, which the claim forbids. -/
theorem c2_ratchet_counterexample :
    bot4MonitorStep
        { epic := some "XRPUSD", level := some 100, limitLevel := none,
          profitLevel := some 99.5, direction := some "SELL" } 100 =
      .ok (some (100.5, none)) ∧ (99.5 : ℚ) < 100.5 := by
  constructor
  · rfl
  · decide

/-- C2 amended: restricted to bot1's monitoring loop the ratchet holds
at decision level: for a BUY position the decided take-profit never
drops below the current one and equals entry*(1+tpMovePercent) rounded
whenever that exceeds the current level; mirrored for SELL with the
less-than comparison; and a second pass over the updated position leaves
the level unchanged (bot4's loop ignores direction, see the
counterexample). -/
theorem c2_ratchet_bot1 :
    ∀ (t : TradeRec) (entry tp' : ℚ),
      t.level = some entry →
      (t.direction = some "BUY" → bot1MonitorStep t = .ok tp' →
        currentTPOf t ≤ tp' ∧
        (round2 (entry * (1 + tpMovePercent)) > currentTPOf t →
          tp' = round2 (entry * (1 + tpMovePercent))) ∧
        bot1MonitorStep { t with limitLevel := some tp' } = .ok tp') ∧
      (t.direction = some "SELL" → bot1MonitorStep t = .ok tp' →
        tp' ≤ currentTPOf t ∧
        (round2 (entry * (1 - tpMovePercent)) < currentTPOf t →
          tp' = round2 (entry * (1 - tpMovePercent))) ∧
        bot1MonitorStep { t with limitLevel := some tp' } = .ok tp') := by
  rintro ⟨epic, level, limitLevel, profitLevel, direction⟩ entry tp' hl
  cases hl
  constructor
  · rintro rfl hok
    cases epic with
    | none => exact absurd hok (by simp [bot1MonitorStep])
    | some e =>
      simp only [bot1MonitorStep, currentTPOf] at hok ⊢
      set cur := limitLevel.getD 0 with hcur
      set newTP := round2 (entry * (1 + tpMovePercent)) with hnew
      by_cases hgt : newTP > cur
      · rw [if_pos hgt] at hok
        injection hok with hok
        subst hok
        refine ⟨le_of_lt hgt, fun _ => rfl, ?_⟩
        simp only [Option.getD_some]
        rw [if_neg (lt_irrefl newTP)]
      · rw [if_neg hgt] at hok
        injection hok with hok
        subst hok
        refine ⟨le_refl _, fun h => absurd h hgt, ?_⟩
        simp only [Option.getD_some]
        rw [if_neg hgt]
  · rintro rfl hok
    cases epic with
    | none => exact absurd hok (by simp [bot1MonitorStep])
    | some e =>
      simp only [bot1MonitorStep, currentTPOf] at hok ⊢
      set cur := limitLevel.getD 0 with hcur
      set newTP := round2 (entry * (1 - tpMovePercent)) with hnew
      by_cases hlt : newTP < cur
      · rw [if_pos hlt] at hok
        injection hok with hok
        subst hok
        refine ⟨le_of_lt hlt, fun _ => rfl, ?_⟩
        simp only [Option.getD_some]
        rw [if_neg (lt_irrefl newTP)]
      · rw [if_neg hlt] at hok
        injection hok with hok
        subst hok
        refine ⟨le_refl _, fun h => absurd h hlt, ?_⟩
        simp only [Option.getD_some]
        rw [if_neg hlt]

set_option maxRecDepth 100000 in
unseal Rat.add Rat.mul Rat.sub Rat.inv Rat.ofScientific in
/-- C2 witness: a BUY position at entry 100 with current take-profit 100
is ratcheted up to round(100*1.005, 2) = 100.5, never below 100. -/
theorem c2_ratchet_bot1_witness :
    currentTPOf ⟨some "BTCUSD", some 100, some 100, none, some "BUY"⟩ ≤ 201/2 :=
  ((c2_ratchet_bot1 ⟨some "BTCUSD", some 100, some 100, none, some "BUY"⟩
    100 (201/2) rfl).1 rfl (by rfl)).1

set_option maxRecDepth 100000 in
unseal Rat.add Rat.mul Rat.sub Rat.inv Rat.ofScientific in
/-- C7 counterexample: a bot4 monitoring pass over five positions where
position 3 lacks the `profitLevel` key aborts at position 3: only the
first two positions are processed and positions 4 and 5 are skipped -
the claim requires every other position to still be processed. -/
theorem c7_isolation_counterexample :
    (bot4MonitorPass 100 c7trades).1.length = 2 ∧
    (bot4MonitorPass 100 c7trades).2 = some "KeyError: profitLevel" ∧
    c7trades.length = 5 := by
  refine ⟨?_, ?_, ?_⟩ <;> rfl

/-- C7 amended: bot1's monitoring pass isolates per-position failures:
it always yields one result per listed position, and the results for the
positions before and after any given position - in particular a failing
one - are exactly the results of processing those positions alone. -/
theorem c7_isolation_bot1 :
    (∀ ts : List TradeRec, (bot1MonitorPass ts).length = ts.length) ∧
    (∀ (xs ys : List TradeRec) (t : TradeRec),
      bot1MonitorPass (xs ++ t :: ys) =
        bot1MonitorPass xs ++ bot1MonitorStep t :: bot1MonitorPass ys) := by
  constructor
  · intro ts; simp [bot1MonitorPass]
  · intro xs ys t; simp [bot1MonitorPass]

/-- C4: with a price history shorter than 20 entries the SMA-crossover
strategy returns None (its long SMA series has fewer than two entries),
and with fewer than 14 rows the ATR-only market analysis of bot1
returns HOLD; both resolve insufficient data as a decision, not an
error. -/
theorem c4_insufficient_history :
    (∀ (positions : List (String × ℚ)) (symbol : String) (cp : ℚ) (ps : List ℚ) (bal : ℚ),
      ps.length < 20 → getSignal positions symbol cp ps bal = none) ∧
    (∀ highs lows closes : List ℚ, closes.length < 14 →
      analyzeMarket highs lows closes = ("HOLD", none, none)) := by
  constructor
  · intro positions symbol cp ps bal hlen
    simp only [getSignal]
    have hC : (smaList 20 ps).length < 2 := by
      rw [length_smaList]; omega
    rw [if_pos (Or.inr (Or.inr (Or.inl hC)))]
  · intro highs lows closes hlen
    unfold analyzeMarket
    split_ifs <;> rfl

/-- C4 witness: a three-entry history yields None from the strategy and
a one-row frame yields HOLD from the analysis. -/
theorem c4_insufficient_history_witness :
    getSignal [] "BTCUSD" 100 [1, 2, 3] 1000 = none ∧
    analyzeMarket [1] [1] [1] = ("HOLD", none, none) :=
  ⟨c4_insufficient_history.1 [] "BTCUSD" 100 [1, 2, 3] 1000 (by decide),
   c4_insufficient_history.2 [1] [1] [1] (by decide)⟩

theorem lastD_map_range (f : Nat → ℚ) (m : Nat) (hm : 0 < m) :
    lastD ((List.range m).map f) = f (m - 1) := by
  unfold lastD
  rw [List.length_map, List.length_range]
  exact getD_map_range f m (m - 1) (by omega)

theorem drop_take_map_range1 (f : Nat → ℚ) (m w : Nat) (hw : w ≤ m) :
    (((List.range' 1 m).map f).drop (m - w)).take w =
      (List.range' (m - w + 1) w).map f := by
  have hsplit : List.range' 1 (m - w) ++ List.range' (1 + (m - w)) w = List.range' 1 m := by
    rw [List.range'_append_1]
    congr 1
    omega
  rw [← hsplit, List.map_append, List.drop_left' (by simp),
    List.take_of_length_le (by simp)]
  have h2 : 1 + (m - w) = m - w + 1 := by omega
  rw [h2]

theorem lastD_smaList (w : Nat) (l : List ℚ) (hw : w ≤ l.length) :
    lastD (smaList w l) = ((l.drop (l.length - w)).take w).sum / w := by
  unfold smaList
  rw [lastD_map_range _ _ (by omega)]
  unfold windowMean
  have h1 : l.length + 1 - w - 1 = l.length - w := by omega
  rw [h1]

theorem lastD_rsiList_window (cs : List ℚ) (hn : 15 ≤ cs.length) :
    lastD (rsiList 14 cs) =
      rsiOf ((List.range' ((cs.length - 1) - 14 + 1) 14).map (deltaAt cs)) := by
  unfold rsiList
  rw [lastD_map_range _ _ (by rw [length_deltaList]; omega)]
  have h1 : (deltaList cs).length + 1 - 14 - 1 = (cs.length - 1) - 14 := by
    rw [length_deltaList]; omega
  rw [h1]
  unfold deltaList
  rw [show cs.length - 1 - 14 = (cs.length - 1) - 14 from rfl]
  congr 1
  have := drop_take_map_range1 (deltaAt cs) (cs.length - 1) 14 (by omega)
  exact this

theorem lastD_atrList_window (hs ls cs : List ℚ) (hn : 15 ≤ cs.length) :
    lastD (atrList 14 hs ls cs) =
      ((List.range' ((cs.length - 1) - 14 + 1) 14).map (trAt hs ls cs)).sum / 14 := by
  unfold atrList
  rw [lastD_smaList 14 _ (by rw [length_trList]; omega)]
  congr 1
  rw [show (trList hs ls cs).length = cs.length - 1 from length_trList hs ls cs]
  unfold trList
  exact congrArg List.sum (drop_take_map_range1 (trAt hs ls cs) (cs.length - 1) 14 (by omega))

theorem trAt_nonneg (hs ls cs : List ℚ) (i : Nat) : 0 ≤ trAt hs ls cs i := by
  unfold trAt
  exact le_trans (abs_nonneg _) (le_trans (le_max_left _ _) (le_max_right _ _))

theorem all_zero_of_sum_zero (l : List ℚ) (hnn : ∀ x ∈ l, 0 ≤ x) (hs : l.sum = 0) :
    ∀ x ∈ l, x = 0 := by
  induction l with
  | nil => simp
  | cons a t ih =>
      simp only [List.sum_cons] at hs
      have hta : 0 ≤ a := hnn a (by simp)
      have htt : 0 ≤ t.sum := List.sum_nonneg (fun x hx => hnn x (by simp [hx]))
      have ha0 : a = 0 := by linarith
      have ht0 : t.sum = 0 := by linarith
      intro x hx
      rcases List.mem_cons.mp hx with rfl | hx
      · exact ha0
      · exact ih (fun y hy => hnn y (by simp [hy])) ht0 x hx

theorem getD_map_mulRight (c : ℚ) (l : List ℚ) (i : Nat) :
    (l.map (fun p => p * c)).getD i 0 = l.getD i 0 * c := by
  simp only [List.getD_eq_getElem?_getD, List.getElem?_map]
  cases l[i]? <;> simp

theorem deltaAt_eq_zero_of_trAt_zero (cs : List ℚ) (i : Nat)
    (h : trAt (cs.map fun p => p * 1.001) (cs.map fun p => p * 0.999) cs i = 0) :
    deltaAt cs i = 0 := by
  unfold trAt at h
  rw [getD_map_mulRight, getD_map_mulRight] at h
  set b := cs.getD i 0 with hbdef
  set a := cs.getD (i - 1) 0 with hadef
  have h1 : |b * 1.001 - a| = 0 := by
    have hle : |b * 1.001 - a| ≤ 0 :=
      le_trans (le_trans (le_max_left _ _) (le_max_right _ _)) (le_of_eq h)
    exact le_antisymm hle (abs_nonneg _)
  have h2 : |b * 0.999 - a| = 0 := by
    have hle : |b * 0.999 - a| ≤ 0 :=
      le_trans (le_trans (le_max_right _ _) (le_max_right _ _)) (le_of_eq h)
    exact le_antisymm hle (abs_nonneg _)
  have e1 : b * 1.001 - a = 0 := abs_eq_zero.mp h1
  have e2 : b * 0.999 - a = 0 := abs_eq_zero.mp h2
  have hb0 : b = 0 := by
    have h3 : b * 1.001 - b * 0.999 = 0 := by linarith
    have h4 : b * (2/1000) = 0 := by ring_nf; ring_nf at h3; linarith
    have := mul_eq_zero.mp h4
    rcases this with hb | himp
    · exact hb
    · norm_num at himp
  have ha0 : a = 0 := by
    have := e1
    rw [hb0] at this
    linarith
  unfold deltaAt
  rw [← hbdef, ← hadef, hb0, ha0]
  ring

theorem rsiOf_all_zero (win : List ℚ) (h : ∀ x ∈ win, x = 0) : rsiOf win = 100 := by
  unfold rsiOf
  have hl : win.filter (fun d => decide (d < 0)) = [] := by
    rw [List.filter_eq_nil_iff]
    intro a ha
    simp [h a ha]
  rw [hl]
  simp

theorem atrZero_forces_rsi100 (cs : List ℚ) (hn : 15 ≤ cs.length)
    (hz : lastD (atrList 14 (cs.map fun p => p * 1.001) (cs.map fun p => p * 0.999) cs) = 0) :
    lastD (rsiList 14 cs) = 100 := by
  rw [lastD_atrList_window _ _ _ hn] at hz
  have hsum : ((List.range' ((cs.length - 1) - 14 + 1) 14).map
      (trAt (cs.map fun p => p * 1.001) (cs.map fun p => p * 0.999) cs)).sum = 0 := by
    rcases div_eq_zero_iff.mp hz with h | h
    · exact h
    · norm_num at h
  have hzero := all_zero_of_sum_zero _
    (fun x hx => by
      obtain ⟨j, hj, rfl⟩ := List.mem_map.mp hx
      exact trAt_nonneg _ _ _ j) hsum
  rw [lastD_rsiList_window cs hn]
  apply rsiOf_all_zero
  intro x hx
  obtain ⟨j, hj, rfl⟩ := List.mem_map.mp hx
  exact deltaAt_eq_zero_of_trAt_zero cs j (hzero _ (List.mem_map_of_mem _ hj))

theorem atrLast_nonneg (cs : List ℚ) (hn : 15 ≤ cs.length) :
    0 ≤ lastD (atrList 14 (cs.map fun p => p * 1.001) (cs.map fun p => p * 0.999) cs) := by
  rw [lastD_atrList_window _ _ _ hn]
  apply div_nonneg
  · apply List.sum_nonneg
    intro x hx
    obtain ⟨j, hj, rfl⟩ := List.mem_map.mp hx
    exact trAt_nonneg _ _ _ j
  · norm_num

theorem getSignal_buy_iff (positions : List (String × ℚ)) (symbol : String) (cp : ℚ)
    (ps : List ℚ) (bal : ℚ) (hpos : positions.lookup symbol = none) :
    (∃ s, getSignal positions symbol cp ps bal = some s ∧ s.action = "BUY") ↔
    (crossoverAtEnd ps ∧ lastD (rsiList 14 ps) < 70) := by
  simp only [getSignal, hpos]
  by_cases hn : 21 ≤ ps.length
  · have hguard : ¬((atrList 14 (ps.map fun p => p * 1.001) (ps.map fun p => p * 0.999)
        ps).length < 2 ∨ (smaList 10 ps).length < 2 ∨ (smaList 20 ps).length < 2 ∨
        (rsiList 14 ps).length < 2) := by
      push_neg
      refine ⟨?_, ?_, ?_, ?_⟩ <;>
        simp only [length_atrList, length_smaList, length_rsiList] <;> omega
    rw [if_neg hguard]
    by_cases hcond : lastD (smaList 10 ps) > lastD (smaList 20 ps) ∧
        secondLastD (smaList 10 ps) ≤ secondLastD (smaList 20 ps) ∧
        lastD (rsiList 14 ps) < 70
    · rw [if_pos hcond]
      constructor
      · intro _
        exact ⟨⟨hn, hcond.1, hcond.2.1⟩, hcond.2.2⟩
      · intro _
        exact ⟨_, rfl, rfl⟩
    · rw [if_neg hcond]
      constructor
      · rintro ⟨s, hs, _⟩
        exact absurd hs (by simp)
      · rintro ⟨⟨h1, h2, h3⟩, h4⟩
        exact absurd ⟨h2, h3, h4⟩ hcond
  · have hguard : (atrList 14 (ps.map fun p => p * 1.001) (ps.map fun p => p * 0.999)
        ps).length < 2 ∨ (smaList 10 ps).length < 2 ∨ (smaList 20 ps).length < 2 ∨
        (rsiList 14 ps).length < 2 :=
      Or.inr (Or.inr (Or.inl (by rw [length_smaList]; omega)))
    rw [if_pos hguard]
    constructor
    · rintro ⟨s, hs, _⟩
      exact absurd hs (by simp)
    · rintro ⟨⟨h1, _⟩, _⟩
      exact absurd h1 hn

/-- C5: for a symbol with no tracked position, when the short SMA
crosses above the long SMA exactly at the latest index of the series (a
crossover there and at no earlier index) while the latest RSI is below
70, the strategy returns a BUY signal on the full series and returns no
BUY on any proper prefix, whatever the supplied current price. -/
theorem c5_crossover_entry :
    ∀ (positions : List (String × ℚ)) (symbol : String) (ps : List ℚ) (bal : ℚ),
      positions.lookup symbol = none →
      crossoverAtEnd ps →
      lastD (rsiList 14 ps) < 70 →
      (∀ k, k < ps.length → ¬ crossoverAtEnd (ps.take k)) →
      (∀ cp, ∃ s, getSignal positions symbol cp ps bal = some s ∧ s.action = "BUY") ∧
      (∀ k cp s, k < ps.length → getSignal positions symbol cp (ps.take k) bal = some s →
        s.action ≠ "BUY") := by
  intro positions symbol ps bal hpos hcross hrsi hclean
  constructor
  · intro cp
    exact (getSignal_buy_iff positions symbol cp ps bal hpos).mpr ⟨hcross, hrsi⟩
  · intro k cp s hk hs hact
    have hmem := (getSignal_buy_iff positions symbol cp (ps.take k) bal hpos).mp ⟨s, hs, hact⟩
    exact hclean k hk hmem.1

set_option maxRecDepth 100000 in
unseal Rat.add Rat.mul Rat.sub Rat.inv Rat.ofScientific in
/-- C5 witness: on the concrete 21-entry series with its only crossover
at the last tick and RSI about 56.3 there, the strategy emits BUY. -/
theorem c5_crossover_entry_witness :
    (getSignal [] "BTCUSD" 129 wSeries 1000).map Signal.action = some "BUY" := by
  obtain ⟨s, hs, ha⟩ := (c5_crossover_entry [] "BTCUSD" wSeries 1000 rfl (by decide)
    (by decide) (by decide)).1 129
  rw [hs]
  simp [ha]

set_option maxRecDepth 100000 in
unseal Rat.add Rat.mul Rat.sub Rat.inv Rat.ofScientific in
/-- C6 counterexample: on a concrete BUY entry the emitted size is
riskAmount/(entryPrice - stopLoss) = riskAmount/(2*atr), not the
riskAmount/(entryPrice - atr*2) the claim states: at balance 1000,
price 129, the code returns 140000/230719 while the claim formula gives
a different value. -/
theorem c6_position_sizing_counterexample :
    getSignal [] "BTCUSD" 129 wSeries 1000 =
      some { action := "BUY", quantity := 140000/230719,
             reason := "SMA crossover with RSI confirmation" } ∧
    (140000/230719 : ℚ) ≠ 1000 * 0.02 /
      (129 - lastD (atrList 14 (wSeries.map fun p => p * 1.001)
        (wSeries.map fun p => p * 0.999) wSeries) * 2) := by
  constructor
  · decide
  · decide

/-- C6 amended: every BUY signal the strategy emits carries size
riskAmount/(entryPrice - stopLoss) where riskAmount = balance*0.02 and
stopLoss = entryPrice - atr*2, i.e. size = riskAmount/(2*atr); there is
no explicit guard against a non-positive stop distance, but on any BUY
the ATR is strictly positive (a zero ATR forces a flat window whose RSI
is 100, failing the RSI < 70 entry test), so with positive balance the
size is well defined and positive. -/
theorem c6_position_sizing :
    ∀ (positions : List (String × ℚ)) (symbol : String) (cp : ℚ) (ps : List ℚ)
      (bal : ℚ) (s : Signal),
      getSignal positions symbol cp ps bal = some s → s.action = "BUY" →
      s.quantity = bal * 0.02 /
        (2 * lastD (atrList 14 (ps.map fun p => p * 1.001) (ps.map fun p => p * 0.999) ps)) ∧
      0 < lastD (atrList 14 (ps.map fun p => p * 1.001) (ps.map fun p => p * 0.999) ps) ∧
      (0 < bal → 0 < s.quantity) := by
  intro positions symbol cp ps bal s hsig hact
  simp only [getSignal] at hsig
  by_cases hguard : (atrList 14 (ps.map fun p => p * 1.001) (ps.map fun p => p * 0.999)
      ps).length < 2 ∨ (smaList 10 ps).length < 2 ∨ (smaList 20 ps).length < 2 ∨
      (rsiList 14 ps).length < 2
  · rw [if_pos hguard] at hsig
    exact absurd hsig (by simp)
  · rw [if_neg hguard] at hsig
    have hn : 21 ≤ ps.length := by
      by_contra hlt
      exact hguard (Or.inr (Or.inr (Or.inl (by rw [length_smaList]; omega))))
    cases hl : positions.lookup symbol with
    | some q =>
        simp only [hl] at hsig
        by_cases hsell : (lastD (smaList 10 ps) < lastD (smaList 20 ps) ∧
            secondLastD (smaList 10 ps) ≥ secondLastD (smaList 20 ps)) ∨
            lastD (rsiList 14 ps) > 70
        · rw [if_pos hsell] at hsig
          injection hsig with hsig
          subst hsig
          exact absurd hact (by simp)
        · rw [if_neg hsell] at hsig
          exact absurd hsig (by simp)
    | none =>
        simp only [hl] at hsig
        by_cases hcond : lastD (smaList 10 ps) > lastD (smaList 20 ps) ∧
            secondLastD (smaList 10 ps) ≤ secondLastD (smaList 20 ps) ∧
            lastD (rsiList 14 ps) < 70
        · rw [if_pos hcond] at hsig
          injection hsig with hsig
          subst hsig
          set atrL := lastD (atrList 14 (ps.map fun p => p * 1.001)
            (ps.map fun p => p * 0.999) ps) with hatr
          have harith : cp - (cp - atrL * 2) = 2 * atrL := by ring
          have hposatr : 0 < atrL := by
            rcases lt_or_eq_of_le (atrLast_nonneg ps (by omega)) with h | h
            · exact h
            · exfalso
              have h100 := atrZero_forces_rsi100 ps (by omega) h.symm
              have hlt70 := hcond.2.2
              rw [h100] at hlt70
              norm_num at hlt70
          refine ⟨?_, hposatr, ?_⟩
          · show bal * 0.02 / (cp - (cp - atrL * 2)) = bal * 0.02 / (2 * atrL)
            rw [harith]
          · intro hbal
            show 0 < bal * 0.02 / (cp - (cp - atrL * 2))
            rw [harith]
            exact div_pos (mul_pos hbal (by norm_num)) (by linarith)
        · rw [if_neg hcond] at hsig
          exact absurd hsig (by simp)

set_option maxRecDepth 100000 in
unseal Rat.add Rat.mul Rat.sub Rat.inv Rat.ofScientific in
/-- C6 witness: on the concrete BUY entry at balance 500 the emitted
size is 10/(2*atr) = 70000/230719, strictly positive. -/
theorem c6_position_sizing_witness :
    getSignal [] "ETHUSD" 129 wSeries 500 =
      some { action := "BUY", quantity := 70000/230719,
             reason := "SMA crossover with RSI confirmation" } ∧
    (0 : ℚ) < 70000/230719 := by
  have hs : getSignal [] "ETHUSD" 129 wSeries 500 =
      some { action := "BUY", quantity := 70000/230719,
             reason := "SMA crossover with RSI confirmation" } := by decide
  have h := c6_position_sizing [] "ETHUSD" 129 wSeries 500 _ hs rfl
  exact ⟨hs, h.2.2 (by norm_num)⟩
